import Mathlib

/-!
Verification development for the CloudSentinel backend core: the
access-decision engine (backend/access_control.py) and the policy /
audit store (backend/database.py).

Modelling conventions:
- JSON objects keyed by strings are association lists with unique keys
  (lookup finds the first matching key; update replaces in place).
- Times of day are seconds since midnight (Python datetime.time compares
  by (hour, minute, second); parsed windows always have second = 0).
- The external geolocation HTTP call in get_location_from_ip is a
  parameter of type String to HttpOutcome: a response (status code plus
  JSON fields) or a transport error (requests exception / bad JSON).
- Database methods that the Python code implements by reading and
  possibly rewriting JSON files are given in state-passing style:
  each takes the store and returns (value, store). Reads return the
  store unchanged, which is what _read_json does; _write_json is
  modelled as always succeeding (its IO failure path only reports an
  error message).
- Python f-string interpolations become string concatenations; the
  exception text appended in the invalid-time-format reason is omitted
  (the claims do not depend on it).
-/

/-- True on exactly the characters 0-9. -/
def isDigitChar (c : Char) : Bool := 48 ≤ c.toNat && c.toNat ≤ 57

/-- Numeric value of a digit string (most significant first). -/
def digitsToNat (cs : List Char) : Nat :=
  cs.foldl (fun n c => n * 10 + (c.toNat - 48)) 0

/-- Split a character list on the colon character (Python str.split on ":"). -/
def splitColon : List Char → List (List Char)
  | [] => [[]]
  | c :: rest =>
    let r := splitColon rest
    if c = ':' then [] :: r
    else
      match r with
      | [] => [[c]]
      | g :: gs => (c :: g) :: gs

/-- Prefix test on character lists (Python str.startswith). -/
def listStartsWith : List Char → List Char → Bool
  | _, [] => true
  | [], _ :: _ => false
  | c :: cs, p :: ps => c == p && listStartsWith cs ps

/-- datetime.strptime(s, "%H:%M").time() as seconds since midnight:
exactly two colon-separated groups of one or two digits, hour at most 23,
minute at most 59; anything else raises in Python, here none. -/
def parseHM (s : String) : Option Nat :=
  match splitColon s.data with
  | [h, m] =>
    if h ≠ [] ∧ h.length ≤ 2 ∧ h.all isDigitChar ∧
       m ≠ [] ∧ m.length ≤ 2 ∧ m.all isDigitChar then
      let hv := digitsToNat h
      let mv := digitsToNat m
      if hv ≤ 23 ∧ mv ≤ 59 then some (hv * 3600 + mv * 60) else none
    else none
  | _ => none

/-- Two-digit zero padding for strftime. -/
def pad2 (n : Nat) : String := if n < 10 then "0" ++ toString n else toString n

/-- current_time.strftime("%H:%M:%S") for a time given in seconds since midnight. -/
def formatHMS (n : Nat) : String :=
  pad2 (n / 3600) ++ ":" ++ pad2 (n % 3600 / 60) ++ ":" ++ pad2 (n % 60)

/-- First-match lookup in an association list (Python dict .get on unique keys). -/
def lookupAssoc {α : Type} : List (String × α) → String → Option α
  | [], _ => none
  | (k, v) :: rest, key => if k = key then some v else lookupAssoc rest key

/-- In-place update or append (Python dict assignment d[key] = v). -/
def setAssoc {α : Type} : List (String × α) → String → α → List (String × α)
  | [], key, v => [(key, v)]
  | (k, w) :: rest, key, v =>
    if k = key then (key, v) :: rest else (k, w) :: setAssoc rest key v

/-- One record of files.json (Database.save_file_metadata fixes this shape). -/
structure FileMeta where
  owner : String
  original_filename : String
  uploaded_at : String
  allowed_users : List String
  access_start_time : String
  access_end_time : String
  allowed_regions : List String
  encryption_metadata : List (String × String)
deriving DecidableEq

/-- One entry of audit_log.json (shape fixed by Database.log_event). -/
structure LogEntry where
  timestamp : String
  event_type : String
  username : String
  file_id : Option String
  ip_address : Option String
  success : Bool
  details : List (String × String)
deriving DecidableEq

/-- The persistent store backing Database: files.json plus audit_log.json.
Users.json is untouched by every operation the claims concern, so it is
not carried. -/
structure DB where
  files : List (String × FileMeta)
  audit : List LogEntry
deriving DecidableEq

/-- success/message dict returned by the mutating Database methods. -/
structure OpResult where
  success : Bool
  message : String
deriving DecidableEq

/-- The metadata argument of save_file_metadata: a dict read with .get
and per-key defaults. -/
structure MetadataArg where
  access_start_time : Option String
  access_end_time : Option String
  allowed_regions : Option (List String)
  encryption_metadata : Option (List (String × String))
deriving DecidableEq

/-- Database.get_file_metadata: a pure read of files.json. -/
def get_file_metadata (db : DB) (file_id : String) : Option FileMeta × DB :=
  (lookupAssoc db.files file_id, db)

/-- Database.save_file_metadata: creates (or overwrites) the policy record;
allowed_users starts as [owner]. now is datetime.now().isoformat(). -/
def save_file_metadata (db : DB) (file_id owner original_filename : String)
    (metadata : MetadataArg) (now : String) : OpResult × DB :=
  let fm : FileMeta :=
    { owner := owner
      original_filename := original_filename
      uploaded_at := now
      allowed_users := [owner]
      access_start_time := metadata.access_start_time.getD "09:00"
      access_end_time := metadata.access_end_time.getD "18:00"
      allowed_regions := metadata.allowed_regions.getD ["IN", "US", "GB"]
      encryption_metadata := metadata.encryption_metadata.getD [] }
  ({ success := true, message := "File metadata saved" },
   { db with files := setAssoc db.files file_id fm })

/-- Database.update_file_access: each optional argument, when present,
replaces the corresponding field wholesale. -/
def update_file_access (db : DB) (file_id : String)
    (allowed_users : Option (List String))
    (access_times : Option (String × String))
    (allowed_regions : Option (List String)) : OpResult × DB :=
  match lookupAssoc db.files file_id with
  | none => ({ success := false, message := "File not found" }, db)
  | some fm0 =>
    let fm1 := match allowed_users with
      | some us => { fm0 with allowed_users := us }
      | none => fm0
    let fm2 := match access_times with
      | some t => { fm1 with access_start_time := t.1, access_end_time := t.2 }
      | none => fm1
    let fm3 := match allowed_regions with
      | some rs => { fm2 with allowed_regions := rs }
      | none => fm2
    ({ success := true, message := "Access control updated" },
     { db with files := setAssoc db.files file_id fm3 })

/-- The log_entry dict built by Database.log_event; details or \x7b\x7d. -/
def mkLogEntry (event_type username : String) (file_id : Option String)
    (details : Option (List (String × String))) (ip_address : Option String)
    (success : Bool) (now : String) : LogEntry :=
  { timestamp := now
    event_type := event_type
    username := username
    file_id := file_id
    ip_address := ip_address
    success := success
    details := details.getD [] }

/-- The append-then-cap step of Database.log_event: append, then keep the
last 1000 entries once the length exceeds 1000 (audit_logs[-1000:]). -/
def boundedAppend (logs : List LogEntry) (e : LogEntry) : List LogEntry :=
  let l := logs ++ [e]
  if l.length > 1000 then l.drop (l.length - 1000) else l

/-- Database.log_event. -/
def log_event (db : DB) (event_type username : String) (file_id : Option String)
    (details : Option (List (String × String))) (ip_address : Option String)
    (success : Bool) (now : String) : DB :=
  { db with
    audit := boundedAppend db.audit
      (mkLogEntry event_type username file_id details ip_address success now) }

/-- Python truthiness of the optional string filters in get_audit_logs:
None and the empty string are falsy. -/
def truthyStr : Option String → Bool
  | none => false
  | some s => !s.isEmpty

/-- Python list slice l[-limit:] for a nonnegative limit: the last limit
elements — except that l[-0:] is the whole list. -/
def pythonLastSlice {α : Type} (l : List α) (limit : Nat) : List α :=
  if limit = 0 then l else l.drop (l.length - limit)

/-- Database.get_audit_logs: sequential optional filters, then
filtered_logs[-limit:][::-1]. -/
def get_audit_logs (db : DB) (username file_id : Option String)
    (limit : Nat) : List LogEntry :=
  let logs0 := db.audit
  let logs1 := if truthyStr username
    then logs0.filter (fun e => e.username == username.getD "")
    else logs0
  let logs2 := if truthyStr file_id
    then logs1.filter (fun e => e.file_id == file_id)
    else logs1
  (pythonLastSlice logs2 limit).reverse

/-- The dict returned by AccessControl.get_location_from_ip: the local
short-circuit and the success path set the location fields, the failure
path sets only reason and ip. -/
structure LocationResult where
  success : Bool
  country_code : Option String := none
  country : Option String := none
  city : Option String := none
  region : Option String := none
  ip : String
  is_local : Option Bool := none
  reason : Option String := none
deriving DecidableEq

/-- The dict returned by the three gate methods of AccessControl.
current_time appears only in the in/out-of-window results of the time
gate; location only in the region-comparison results of the region gate. -/
structure CheckResult where
  allowed : Bool
  reason : String
  check : String
  current_time : Option String := none
  location : Option LocationResult := none
deriving DecidableEq

/-- Outcome of the requests.get call to ip-api.com: an HTTP response with
its status code and JSON fields, or a raised exception (timeout, transport
error, unparsable body). -/
inductive HttpOutcome where
  | response (status_code : Nat) (jsonStatus : String)
      (countryCode country city regionName : Option String)
  | transportError (msg : String)
deriving DecidableEq

/-- The local/private test of get_location_from_ip: exactly the literals
127.0.0.1 and localhost, plus the 192.168. prefix. -/
def isLocalIp (ip : String) : Bool :=
  ip == "127.0.0.1" || ip == "localhost" || listStartsWith ip.data "192.168.".data

/-- AccessControl.get_location_from_ip, with the HTTP call abstracted as
the lookup parameter. -/
def get_location_from_ip (lookup : String → HttpOutcome)
    (ip_address : String) : LocationResult :=
  if isLocalIp ip_address then
    { success := true
      country_code := some "IN"
      country := some "India"
      city := some "Local"
      ip := ip_address
      is_local := some true }
  else
    match lookup ip_address with
    | .response status_code jsonStatus countryCode country city regionName =>
      if status_code == 200 && jsonStatus == "success" then
        { success := true
          country_code := some (countryCode.getD "UNKNOWN")
          country := some (country.getD "Unknown")
          city := some (city.getD "Unknown")
          region := some (regionName.getD "Unknown")
          ip := ip_address
          is_local := some false }
      else
        { success := false
          reason := some "Failed to get location data"
          ip := ip_address }
    | .transportError msg =>
      { success := false
        reason := some ("Location lookup failed: " ++ msg)
        ip := ip_address }

/-- AccessControl.check_user_permission. -/
def check_user_permission (db : DB) (username file_id : String) :
    CheckResult × DB :=
  let r := get_file_metadata db file_id
  match r.1 with
  | none =>
    ({ allowed := false, reason := "File not found", check := "file_exists" }, r.2)
  | some fm =>
    if username ∉ fm.allowed_users then
      ({ allowed := false
         reason := "User " ++ username ++ " not authorized to access this file"
         check := "user_permission" }, r.2)
    else
      ({ allowed := true
         reason := "User has permission"
         check := "user_permission" }, r.2)

/-- AccessControl.check_time_based_access; nowSec is datetime.now().time()
as seconds since midnight. -/
def check_time_based_access (db : DB) (file_id : String) (nowSec : Nat) :
    CheckResult × DB :=
  let r := get_file_metadata db file_id
  match r.1 with
  | none =>
    ({ allowed := false, reason := "File not found", check := "time_based" }, r.2)
  | some fm =>
    match parseHM fm.access_start_time, parseHM fm.access_end_time with
    | some start_time, some end_time =>
      if start_time ≤ nowSec ∧ nowSec ≤ end_time then
        ({ allowed := true
           reason := "Access allowed between " ++ fm.access_start_time ++
             " and " ++ fm.access_end_time
           check := "time_based"
           current_time := some (formatHMS nowSec) }, r.2)
      else
        ({ allowed := false
           reason := "Access only allowed between " ++ fm.access_start_time ++
             " and " ++ fm.access_end_time
           check := "time_based"
           current_time := some (formatHMS nowSec) }, r.2)
    | _, _ =>
      ({ allowed := false
         reason := "Invalid time format in file metadata"
         check := "time_based" }, r.2)

/-- AccessControl.check_location_based_access. -/
def check_location_based_access (lookup : String → HttpOutcome) (db : DB)
    (file_id ip_address : String) : CheckResult × DB :=
  let r := get_file_metadata db file_id
  match r.1 with
  | none =>
    ({ allowed := false, reason := "File not found", check := "location_based" }, r.2)
  | some fm =>
    let location := get_location_from_ip lookup ip_address
    if location.success = false then
      ({ allowed := false
         reason := location.reason.getD "Unable to verify location"
         check := "location_based" }, r.2)
    else
      let allowed_regions := fm.allowed_regions
      let country_code := location.country_code.getD ""
      if country_code ∈ allowed_regions then
        ({ allowed := true
           reason := "Access allowed from " ++ location.country.getD "" ++
             " (" ++ country_code ++ ")"
           check := "location_based"
           location := some location }, r.2)
      else
        ({ allowed := false
           reason := "Access denied from " ++ location.country.getD "" ++
             " (" ++ country_code ++ "). Allowed regions: " ++
             String.intercalate ", " allowed_regions
           check := "location_based"
           location := some location }, r.2)

/-- The verification_results dict of AccessControl.verify_access; checks is
an insertion-ordered dict. -/
structure VerificationResult where
  allowed : Bool
  username : String
  file_id : String
  ip_address : String
  timestamp : String
  checks : List (String × CheckResult)
  denied_reason : Option String := none
  failed_check : Option String := none
  message : Option String := none
deriving DecidableEq

/-- AccessControl.verify_access: the three gates in order, stopping at the
first denial; each gate call threads the store returned by the previous
one. -/
def verify_access (lookup : String → HttpOutcome) (db : DB)
    (username file_id ip_address : String) (nowSec : Nat) (nowIso : String) :
    VerificationResult × DB :=
  let base : VerificationResult :=
    { allowed := false
      username := username
      file_id := file_id
      ip_address := ip_address
      timestamp := nowIso
      checks := [] }
  let u := check_user_permission db username file_id
  let res1 := { base with checks := base.checks ++ [("user_permission", u.1)] }
  if u.1.allowed = false then
    ({ res1 with
       denied_reason := some u.1.reason
       failed_check := some "user_permission" }, u.2)
  else
    let t := check_time_based_access u.2 file_id nowSec
    let res2 := { res1 with checks := res1.checks ++ [("time_based", t.1)] }
    if t.1.allowed = false then
      ({ res2 with
         denied_reason := some t.1.reason
         failed_check := some "time_based" }, t.2)
    else
      let l := check_location_based_access lookup t.2 file_id ip_address
      let res3 := { res2 with checks := res2.checks ++ [("location_based", l.1)] }
      if l.1.allowed = false then
        ({ res3 with
           denied_reason := some l.1.reason
           failed_check := some "location_based" }, l.2)
      else
        ({ res3 with
           allowed := true
           message := some "All Zero-Trust checks passed - Access granted!" }, l.2)

/-! Fixtures and auxiliary definitions used by the theorems below. -/

/-- A sample stored policy, as save_file_metadata lays it out. -/
def sampleMeta : FileMeta :=
  { owner := "alice"
    original_filename := "doc.pdf"
    uploaded_at := "2026-01-01T00:00:00"
    allowed_users := ["alice"]
    access_start_time := "09:00"
    access_end_time := "18:00"
    allowed_regions := ["IN", "US"]
    encryption_metadata := [] }

/-- A store holding the sample policy under f1. -/
def sampleDB : DB := { files := [("f1", sampleMeta)], audit := [] }

/-- A resolver that always raises (requests timeout). -/
def failLookup : String → HttpOutcome := fun _ => .transportError "timeout"

/-- The sample policy with an unparsable window start. -/
def badTimeMeta : FileMeta := { sampleMeta with access_start_time := "9am" }

/-- A store holding the malformed policy under f2. -/
def badTimeDB : DB := { files := [("f2", badTimeMeta)], audit := [] }

/-- The sixteen dotted prefixes of 172.16.0.0/12. -/
def rfc1918Block172 : List String :=
  ["172.16.", "172.17.", "172.18.", "172.19.", "172.20.", "172.21.",
   "172.22.", "172.23.", "172.24.", "172.25.", "172.26.", "172.27.",
   "172.28.", "172.29.", "172.30.", "172.31."]

/-- Modelled from the spec: loopback and private-range origins in the
standard sense — loopback 127.0.0.0/8 or the name localhost, and the
RFC 1918 private ranges 10/8, 172.16/12, 192.168/16, read off the
dotted-quad prefix. The code counterpart is isLocalIp, which covers a
strict subset. -/
def spec_isLoopbackOrPrivate (ip : String) : Bool :=
  listStartsWith ip.data "127.".data || ip == "localhost" ||
  listStartsWith ip.data "10.".data ||
  listStartsWith ip.data "192.168.".data ||
  rfc1918Block172.any (fun p => listStartsWith ip.data p.data)

/-- An empty metadata dict for save_file_metadata (all keys defaulted). -/
def noMeta : MetadataArg :=
  { access_start_time := none
    access_end_time := none
    allowed_regions := none
    encryption_metadata := none }

/-- The argument tuple of one Database.log_event call. -/
structure EventArgs where
  event_type : String
  username : String
  file_id : Option String
  details : Option (List (String × String))
  ip_address : Option String
  success : Bool
  now : String
deriving DecidableEq

/-- One Database.log_event call with its arguments bundled. -/
def logEventArgs (db : DB) (a : EventArgs) : DB :=
  log_event db a.event_type a.username a.file_id a.details a.ip_address
    a.success a.now

/-- The audit entry a bundled log_event call writes. -/
def entryOfArgs (a : EventArgs) : LogEntry :=
  mkLogEntry a.event_type a.username a.file_id a.details a.ip_address
    a.success a.now

/-- A sample audit entry by alice with no file id. -/
def sampleEntry : LogEntry :=
  { timestamp := "t1", event_type := "LOGIN", username := "alice",
    file_id := none, ip_address := none, success := true, details := [] }

/-- A sample audit entry by bob on f1. -/
def sampleEntry2 : LogEntry :=
  { timestamp := "t2", event_type := "UPLOAD", username := "bob",
    file_id := some "f1", ip_address := none, success := true, details := [] }

/-- A second, later alice entry on f1. -/
def sampleEntry3 : LogEntry :=
  { timestamp := "t3", event_type := "DOWNLOAD", username := "alice",
    file_id := some "f1", ip_address := none, success := true, details := [] }

/-- A store with three audit entries, oldest first. -/
def auditDB : DB :=
  { files := [], audit := [sampleEntry, sampleEntry2, sampleEntry3] }

/-- The AND of the provided filters of get_audit_logs, as one predicate. -/
def auditMatches (username file_id : Option String) (x : LogEntry) : Bool :=
  (match username with | some s => x.username == s | none => true) &&
  (match file_id with | some s => x.file_id == some s | none => true)

/-! Helper lemmas: every gate returns the store it was given. -/

theorem check_user_permission_snd (db : DB) (username file_id : String) :
    (check_user_permission db username file_id).2 = db := by
  unfold check_user_permission get_file_metadata
  cases lookupAssoc db.files file_id
  · rfl
  · simp only
    split <;> rfl

theorem check_time_based_access_snd (db : DB) (file_id : String) (nowSec : Nat) :
    (check_time_based_access db file_id nowSec).2 = db := by
  unfold check_time_based_access get_file_metadata
  cases h : lookupAssoc db.files file_id
  · rfl
  · simp only
    cases parseHM _ <;> cases parseHM _
    case some.some =>
      simp only
      split <;> rfl
    all_goals rfl

theorem check_location_based_access_snd (lookup : String → HttpOutcome)
    (db : DB) (file_id ip_address : String) :
    (check_location_based_access lookup db file_id ip_address).2 = db := by
  unfold check_location_based_access get_file_metadata
  cases lookupAssoc db.files file_id
  · rfl
  · simp only
    repeat' first | split | rfl

theorem verify_access_snd (lookup : String → HttpOutcome) (db : DB)
    (username file_id ip_address : String) (nowSec : Nat) (nowIso : String) :
    (verify_access lookup db username file_id ip_address nowSec nowIso).2 = db := by
  unfold verify_access
  simp only [check_user_permission_snd, check_time_based_access_snd,
    check_location_based_access_snd]
  repeat' first | split | rfl

theorem get_location_from_ip_failure_reason (lookup : String → HttpOutcome)
    (ip : String) (hf : (get_location_from_ip lookup ip).success = false) :
    ∃ r, (get_location_from_ip lookup ip).reason = some r := by
  unfold get_location_from_ip at hf ⊢
  cases hl : isLocalIp ip
  · simp only [hl, Bool.false_eq_true, if_false] at hf ⊢
    cases h : lookup ip with
    | response sc js cc c ci rn =>
      simp only [h] at hf ⊢
      by_cases hc : (sc == 200 && js == "success") = true
      · rw [if_pos hc] at hf
        simp at hf
      · rw [if_neg hc]
        exact ⟨_, rfl⟩
    | transportError msg =>
      simp only [h] at hf ⊢
      exact ⟨_, rfl⟩
  · rw [hl] at hf
    simp at hf

/-- Claim C2: a failed region resolution makes check_location_based_access
on an existing policy deny with the resolver failure reason and
check location_based; no path under failed resolution allows. -/
theorem region_gate_fails_closed (lookup : String → HttpOutcome) (db : DB)
    (file_id ip_address : String) (fm : FileMeta)
    (hp : lookupAssoc db.files file_id = some fm)
    (hf : (get_location_from_ip lookup ip_address).success = false) :
    ∃ r, (get_location_from_ip lookup ip_address).reason = some r ∧
      (check_location_based_access lookup db file_id ip_address).1 =
        { allowed := false, reason := r, check := "location_based" } := by
  obtain ⟨r, hr⟩ := get_location_from_ip_failure_reason lookup ip_address hf
  refine ⟨r, hr, ?_⟩
  simp only [check_location_based_access, get_file_metadata, hp, hf, hr]
  simp [hr]

/-- Claim C3: for an existing policy with parseable window, the time gate
allows exactly when windowStart ≤ now ≤ windowEnd (inclusive both ends);
in particular it allows at both endpoints of a nonempty window, denies
one minute past windowEnd, and an end-before-start window matches no
time of day. -/
theorem time_gate_window (db : DB) (file_id : String) (fm : FileMeta)
    (s e : Nat)
    (hp : lookupAssoc db.files file_id = some fm)
    (hs : parseHM fm.access_start_time = some s)
    (he : parseHM fm.access_end_time = some e) :
    (∀ nowSec, ((check_time_based_access db file_id nowSec).1.allowed = true ↔
        s ≤ nowSec ∧ nowSec ≤ e)) ∧
    (s ≤ e → (check_time_based_access db file_id s).1.allowed = true ∧
      (check_time_based_access db file_id e).1.allowed = true) ∧
    ((check_time_based_access db file_id (e + 60)).1.allowed = false) ∧
    (e < s → ∀ nowSec,
      (check_time_based_access db file_id nowSec).1.allowed = false) := by
  have key : ∀ nowSec, ((check_time_based_access db file_id nowSec).1.allowed = true ↔
      s ≤ nowSec ∧ nowSec ≤ e) := by
    intro nowSec
    simp only [check_time_based_access, get_file_metadata, hp, hs, he]
    by_cases h : s ≤ nowSec ∧ nowSec ≤ e
    · simp [h]
    · simp [h]
  refine ⟨key, ?_, ?_, ?_⟩
  · intro hse
    exact ⟨(key s).mpr ⟨Nat.le_refl s, hse⟩, (key e).mpr ⟨hse, Nat.le_refl e⟩⟩
  · cases hb : (check_time_based_access db file_id (e + 60)).1.allowed
    · rfl
    · exfalso
      have h := (key (e + 60)).mp hb
      omega
  · intro hes nowSec
    cases hb : (check_time_based_access db file_id nowSec).1.allowed
    · rfl
    · exfalso
      have h := (key nowSec).mp hb
      omega

/-- Concrete instance of time_gate_window on the sample 09:00-18:00
policy: allowed at both window endpoints and inside, denied one minute
past the end. -/
theorem time_gate_window_witness :
    (check_time_based_access sampleDB "f1" 32400).1.allowed = true ∧
    (check_time_based_access sampleDB "f1" 64800).1.allowed = true ∧
    (check_time_based_access sampleDB "f1" 64860).1.allowed = false ∧
    (check_time_based_access sampleDB "f1" 36000).1.allowed = true := by
  have h := time_gate_window sampleDB "f1" sampleMeta 32400 64800
    (by decide) (by decide) (by decide)
  refine ⟨(h.2.1 (by decide)).1, (h.2.1 (by decide)).2, h.2.2.1, ?_⟩
  exact (h.1 36000).mpr (by decide)

/-- Concrete instance of region_gate_fails_closed: a timing-out resolver
on a public origin yields a location_based deny carrying the resolver
failure reason. -/
theorem region_gate_fails_closed_witness :
    (get_location_from_ip failLookup "8.8.8.8").reason =
      some "Location lookup failed: timeout" ∧
    (check_location_based_access failLookup sampleDB "f1" "8.8.8.8").1 =
      { allowed := false, reason := "Location lookup failed: timeout",
        check := "location_based" } := by
  obtain ⟨r, hr, hc⟩ := region_gate_fails_closed failLookup sampleDB "f1"
    "8.8.8.8" sampleMeta (by decide) (by decide)
  have hv : (get_location_from_ip failLookup "8.8.8.8").reason =
      some "Location lookup failed: timeout" := by decide
  have hreq : r = "Location lookup failed: timeout" :=
    Option.some.inj (hr.symm.trans hv)
  subst hreq
  exact ⟨hv, hc⟩

/-- Counterexample to claim C5: on an absent policy the identity gate
reports check file_exists, not user_permission. -/
theorem identity_gate_notfound_check_field :
    (check_user_permission { files := [], audit := [] } "alice" "missing").1 =
      { allowed := false, reason := "File not found", check := "file_exists" } ∧
    ¬ ((check_user_permission { files := [], audit := [] } "alice" "missing").1.check
        = "user_permission") := by decide

/-- Claim C5 amended: on an absent policy every gate denies with reason
File not found; the check fields are file_exists for the identity gate
and time_based / location_based for the other two. -/
theorem gates_resource_notfound (lookup : String → HttpOutcome) (db : DB)
    (username file_id ip_address : String) (nowSec : Nat)
    (hp : lookupAssoc db.files file_id = none) :
    (check_user_permission db username file_id).1 =
      { allowed := false, reason := "File not found", check := "file_exists" } ∧
    (check_time_based_access db file_id nowSec).1 =
      { allowed := false, reason := "File not found", check := "time_based" } ∧
    (check_location_based_access lookup db file_id ip_address).1 =
      { allowed := false, reason := "File not found", check := "location_based" } := by
  simp [check_user_permission, check_time_based_access,
    check_location_based_access, get_file_metadata, hp]

/-- Concrete instance of gates_resource_notfound on an empty store. -/
theorem gates_resource_notfound_witness :
    (check_user_permission { files := [], audit := [] } "alice" "nofile").1 =
      { allowed := false, reason := "File not found", check := "file_exists" } ∧
    (check_time_based_access { files := [], audit := [] } "nofile" 0).1 =
      { allowed := false, reason := "File not found", check := "time_based" } ∧
    (check_location_based_access failLookup { files := [], audit := [] }
        "nofile" "127.0.0.1").1 =
      { allowed := false, reason := "File not found", check := "location_based" } :=
  gates_resource_notfound failLookup { files := [], audit := [] } "alice"
    "nofile" "127.0.0.1" 0 (by decide)

/-- Claim C6: an existing policy whose window strings fail to parse makes
the time gate deny with the invalid-time-format reason and check
time_based; the gate is a total function, so no exception crosses the
engine boundary. -/
theorem time_gate_invalid_format (db : DB) (file_id : String) (fm : FileMeta)
    (nowSec : Nat)
    (hp : lookupAssoc db.files file_id = some fm)
    (hbad : parseHM fm.access_start_time = none ∨
      parseHM fm.access_end_time = none) :
    (check_time_based_access db file_id nowSec).1 =
      { allowed := false, reason := "Invalid time format in file metadata",
        check := "time_based" } := by
  simp only [check_time_based_access, get_file_metadata, hp]
  cases h1 : parseHM fm.access_start_time <;>
    cases h2 : parseHM fm.access_end_time <;> simp_all

/-- Concrete instance of time_gate_invalid_format: window start 9am. -/
theorem time_gate_invalid_format_witness :
    (check_time_based_access badTimeDB "f2" 36000).1 =
      { allowed := false, reason := "Invalid time format in file metadata",
        check := "time_based" } :=
  time_gate_invalid_format badTimeDB "f2" badTimeMeta 36000 (by decide)
    (Or.inl (by decide))

/-- Counterexample to claim C8: the private-range origin 10.0.0.1 is
not short-circuited: with an erroring resolver the lookup result reports
failure rather than the fixed trusted region. -/
theorem private_origin_not_short_circuited :
    spec_isLoopbackOrPrivate "10.0.0.1" = true ∧
    isLocalIp "10.0.0.1" = false ∧
    (get_location_from_ip failLookup "10.0.0.1").success = false ∧
    ¬ ((get_location_from_ip failLookup "10.0.0.1").is_local = some true) := by
  decide

/-- Claim C8 amended: for the origins the code treats as local (exactly
127.0.0.1, localhost, and the 192.168. prefix) the resolver
short-circuits to the fixed trusted region IN with is_local true,
independently of the external lookup; the region gate then depends only
on whether IN is among the allowed regions of the policy. -/
theorem local_origin_short_circuit (lookup : String → HttpOutcome) (ip : String)
    (hloc : isLocalIp ip = true) :
    get_location_from_ip lookup ip =
      { success := true, country_code := some "IN", country := some "India",
        city := some "Local", ip := ip, is_local := some true } ∧
    ∀ db file_id fm, lookupAssoc db.files file_id = some fm →
      (((check_location_based_access lookup db file_id ip).1.allowed = true) ↔
        "IN" ∈ fm.allowed_regions) := by
  have hres : get_location_from_ip lookup ip =
      { success := true, country_code := some "IN", country := some "India",
        city := some "Local", ip := ip, is_local := some true } := by
    unfold get_location_from_ip
    rw [if_pos hloc]
  refine ⟨hres, ?_⟩
  intro db fid fm hp
  simp only [check_location_based_access, get_file_metadata, hp, hres]
  by_cases hin : "IN" ∈ fm.allowed_regions <;> simp [hin]

/-- Concrete instance of local_origin_short_circuit at 127.0.0.1 with a
failing resolver and the sample policy. -/
theorem local_origin_short_circuit_witness :
    get_location_from_ip failLookup "127.0.0.1" =
      { success := true, country_code := some "IN", country := some "India",
        city := some "Local", ip := "127.0.0.1", is_local := some true } ∧
    ((check_location_based_access failLookup sampleDB "f1" "127.0.0.1").1.allowed
        = true ↔ "IN" ∈ sampleMeta.allowed_regions) := by
  have h := local_origin_short_circuit failLookup "127.0.0.1" (by decide)
  exact ⟨h.1, h.2 sampleDB "f1" sampleMeta (by decide)⟩

/-- Claim C9, evaluated at the failing input: after creation the owner is
in allowed_users, but update_file_access with a list omitting the owner
replaces allowed_users wholesale and removes the owner, contradicting the
stated invariant and the source comment "Owner always has access". -/
theorem owner_membership_not_preserved :
    (lookupAssoc ((save_file_metadata { files := [], audit := [] } "f1" "alice"
        "doc.pdf" noMeta "t0").2).files "f1" =
      some { owner := "alice", original_filename := "doc.pdf",
             uploaded_at := "t0", allowed_users := ["alice"],
             access_start_time := "09:00", access_end_time := "18:00",
             allowed_regions := ["IN", "US", "GB"], encryption_metadata := [] }) ∧
    "alice" ∈ (["alice"] : List String) ∧
    (lookupAssoc ((update_file_access (save_file_metadata { files := [], audit := [] }
        "f1" "alice" "doc.pdf" noMeta "t0").2 "f1" (some ["bob"]) none none).2).files
        "f1" =
      some { owner := "alice", original_filename := "doc.pdf",
             uploaded_at := "t0", allowed_users := ["bob"],
             access_start_time := "09:00", access_end_time := "18:00",
             allowed_regions := ["IN", "US", "GB"], encryption_metadata := [] }) ∧
    "alice" ∉ (["bob"] : List String) := by decide

theorem boundedAppend_eq (logs : List LogEntry) (e : LogEntry) :
    boundedAppend logs e = (logs ++ [e]).drop (logs.length + 1 - 1000) := by
  unfold boundedAppend
  simp only [List.length_append, List.length_singleton]
  split
  · rfl
  · rename_i h
    rw [Nat.sub_eq_zero_of_le (by omega), List.drop_zero]

theorem boundedAppend_drop (L : List LogEntry) (e : LogEntry) :
    boundedAppend (L.drop (L.length - 1000)) e =
      (L ++ [e]).drop (L.length + 1 - 1000) := by
  have harith : L.length - 1000 + (L.length - (L.length - 1000) + 1 - 1000) =
      L.length + 1 - 1000 := by omega
  rw [boundedAppend_eq, List.length_drop,
    ← List.drop_append_of_le_length (by omega), List.drop_drop, harith]

/-- Claim C4: starting from an empty audit log, any sequence of log_event
calls leaves exactly the most recent min(length, 1000) entries, stored
oldest-first; in particular the log never exceeds 1000 entries, and after
1000 + k events exactly the 1000 most recent remain. -/
theorem log_event_bounded (files : List (String × FileMeta))
    (events : List EventArgs) :
    (events.foldl logEventArgs { files := files, audit := [] }).audit =
      (events.map entryOfArgs).drop (events.length - 1000) ∧
    (events.foldl logEventArgs { files := files, audit := [] }).audit.length
      ≤ 1000 := by
  have key : ∀ es : List EventArgs,
      (es.foldl logEventArgs { files := files, audit := [] }).audit =
        (es.map entryOfArgs).drop (es.length - 1000) := by
    intro es
    induction es using List.reverseRecOn with
    | nil => simp
    | append_singleton as a ih =>
      rw [List.foldl_append]
      have hstep : ∀ db : DB, (logEventArgs db a).audit =
          boundedAppend db.audit (entryOfArgs a) := by
        intro db
        rfl
      rw [List.foldl_cons, List.foldl_nil, hstep, ih]
      have := boundedAppend_drop (as.map entryOfArgs) (entryOfArgs a)
      rw [List.length_map] at this
      rw [this]
      simp [List.length_append]
  refine ⟨key events, ?_⟩
  rw [key events, List.length_drop, List.length_map]
  omega

/-- Counterexample to claim C7: with limit 0 the Python slice
audit_logs[-0:] is the whole list, so get_audit_logs returns more than
limit entries; moreover the provided empty-string identity filter is
falsy in Python and silently ignored, so the returned entry does not
match it. -/
theorem get_audit_logs_limit_zero :
    get_audit_logs { files := [], audit := [sampleEntry] } (some "") none 0 =
      [sampleEntry] ∧
    ¬ ((get_audit_logs { files := [], audit := [sampleEntry] }
        (some "") none 0).length ≤ 0) ∧
    ¬ (sampleEntry.username = "") := by decide

/-- Claim C7 amended: for every positive limit and provided filters that
are not the empty string, get_audit_logs returns at most limit entries,
each matching every provided filter, and equals the most recent matches
newest-first (the reversed limit-suffix of the matches in log order). -/
theorem get_audit_logs_spec (db : DB) (username file_id : Option String)
    (limit : Nat) (hl : 1 ≤ limit) (hu : username ≠ some "")
    (hf : file_id ≠ some "") :
    get_audit_logs db username file_id limit =
      ((db.audit.filter (fun x => auditMatches username file_id x)).drop
        ((db.audit.filter (fun x => auditMatches username file_id x)).length
          - limit)).reverse ∧
    (get_audit_logs db username file_id limit).length ≤ limit ∧
    ∀ x ∈ get_audit_logs db username file_id limit,
      (∀ s, username = some s → x.username = s) ∧
      (∀ s, file_id = some s → x.file_id = some s) := by
  have hemp : ∀ s : String, s ≠ "" → s.isEmpty = false := by
    intro s hs
    cases he : s.isEmpty
    · rfl
    · exact absurd ((String.isEmpty_iff s).mp he) hs
  have hslice : ∀ l : List LogEntry,
      pythonLastSlice l limit = l.drop (l.length - limit) := by
    intro l
    unfold pythonLastSlice
    rw [if_neg (by omega)]
  have heq : get_audit_logs db username file_id limit =
      ((db.audit.filter (fun x => auditMatches username file_id x)).drop
        ((db.audit.filter (fun x => auditMatches username file_id x)).length
          - limit)).reverse := by
    rcases username with _ | s1
    · rcases file_id with _ | s2
      · simp [get_audit_logs, truthyStr, auditMatches, hslice]
      · have h2 : s2.isEmpty = false := hemp s2 (by
          intro h
          exact hf (by rw [h]))
        simp [get_audit_logs, truthyStr, auditMatches, hslice, h2]
    · have h1 : s1.isEmpty = false := hemp s1 (by
        intro h
        exact hu (by rw [h]))
      rcases file_id with _ | s2
      · simp [get_audit_logs, truthyStr, auditMatches, hslice, h1]
      · have h2 : s2.isEmpty = false := hemp s2 (by
          intro h
          exact hf (by rw [h]))
        have hcomm : (db.audit.filter fun a =>
              (a.file_id == some s2) && (a.username == s1)) =
            db.audit.filter fun a => (a.username == s1) && (a.file_id == some s2) :=
          List.filter_congr (fun a _ => by rw [Bool.and_comm])
        simp [get_audit_logs, truthyStr, auditMatches, hslice, h1, h2,
          List.filter_filter, hcomm]
  refine ⟨heq, ?_, ?_⟩
  · rw [heq]
    simp only [List.length_reverse, List.length_drop]
    omega
  · intro x hx
    rw [heq, List.mem_reverse] at hx
    have hx2 := List.mem_of_mem_drop hx
    obtain ⟨-, hpred⟩ := List.mem_filter.mp hx2
    constructor
    · intro s hs
      subst hs
      simp [auditMatches] at hpred
      exact hpred.1
    · intro s hs
      subst hs
      simp [auditMatches] at hpred
      exact hpred.2

/-- Concrete instance of get_audit_logs_spec: identity filter alice with
limit 1 on a three-entry log returns exactly the newest alice entry. -/
theorem get_audit_logs_spec_witness :
    get_audit_logs auditDB (some "alice") none 1 = [sampleEntry3] ∧
    (get_audit_logs auditDB (some "alice") none 1).length ≤ 1 ∧
    sampleEntry3.username = "alice" := by
  have h := get_audit_logs_spec auditDB (some "alice") none 1
    (by decide) (by decide) (by decide)
  refine ⟨?_, h.2.1, by decide⟩
  rw [h.1]
  decide

/-- Claim C10: the three gate operations and verify_access are read-only
with respect to shared state: each returns the policy store and audit
log exactly as given, so any audit write of the outcome is performed by
the caller, not by the engine. -/
theorem engine_read_only (lookup : String → HttpOutcome) (db : DB)
    (username file_id ip_address : String) (nowSec : Nat) (nowIso : String) :
    (check_user_permission db username file_id).2 = db ∧
    (check_time_based_access db file_id nowSec).2 = db ∧
    (check_location_based_access lookup db file_id ip_address).2 = db ∧
    (verify_access lookup db username file_id ip_address nowSec nowIso).2 = db :=
  ⟨check_user_permission_snd db username file_id,
   check_time_based_access_snd db file_id nowSec,
   check_location_based_access_snd lookup db file_id ip_address,
   verify_access_snd lookup db username file_id ip_address nowSec nowIso⟩

/-- Claim C1: verify_access runs identity, time, region in that order,
stops at the first denying gate, recording its reason as denied_reason
and its name as failed_check and omitting later gates from checks, and
allows exactly when all three gates individually allow, in which case
checks holds all three entries in order. -/
theorem verify_access_pipeline (lookup : String → HttpOutcome) (db : DB)
    (username file_id ip_address : String) (nowSec : Nat) (nowIso : String) :
    let u := (check_user_permission db username file_id).1
    let t := (check_time_based_access db file_id nowSec).1
    let l := (check_location_based_access lookup db file_id ip_address).1
    let v := (verify_access lookup db username file_id ip_address nowSec nowIso).1
    (v.allowed = true ↔ u.allowed = true ∧ t.allowed = true ∧ l.allowed = true) ∧
    (u.allowed = false →
      v.checks = [("user_permission", u)] ∧
      v.denied_reason = some u.reason ∧
      v.failed_check = some "user_permission" ∧ v.allowed = false) ∧
    (u.allowed = true → t.allowed = false →
      v.checks = [("user_permission", u), ("time_based", t)] ∧
      v.denied_reason = some t.reason ∧
      v.failed_check = some "time_based" ∧ v.allowed = false) ∧
    (u.allowed = true → t.allowed = true → l.allowed = false →
      v.checks = [("user_permission", u), ("time_based", t),
        ("location_based", l)] ∧
      v.denied_reason = some l.reason ∧
      v.failed_check = some "location_based" ∧ v.allowed = false) ∧
    (u.allowed = true → t.allowed = true → l.allowed = true →
      v.allowed = true ∧
      v.checks = [("user_permission", u), ("time_based", t),
        ("location_based", l)]) := by
  simp only [verify_access, check_user_permission_snd, check_time_based_access_snd]
  cases hu : (check_user_permission db username file_id).1.allowed <;>
    cases ht : (check_time_based_access db file_id nowSec).1.allowed <;>
      cases hl : (check_location_based_access lookup db file_id ip_address).1.allowed <;>
        simp [hu, ht, hl]
